import Mathlib

/-!
Shallow embedding of the dataset-detection and header-harmonization core of
the Southside dashboards repository:

* `src/wow_risk_dashboard/io/schemas.py` — alias-variant generation and the
  five static dataset specs;
* `src/wow_risk_dashboard/io/loader.py` — header normalization, alias
  matching, per-spec evaluation, file-profile detection, and batch loading;
* `src/wow_risk_dashboard/components/inputs.py` — the expectation matcher
  `_match_columns`.

Strings are modelled over their character lists; Python `str.lower`,
`str.strip`, `str.startswith` and substring tests are modelled for ASCII
data (all registry data and all inputs considered here are ASCII).
Python dicts that are built by in-order insertion are modelled as
association lists in insertion order.
-/

/-- Character class of normalized tokens: ASCII lowercase letters and digits,
mirroring the regex `[^a-z0-9]` used for stripping in `loader.py`. -/
def isTokenChar (c : Char) : Bool :=
  (97 ≤ c.toNat && c.toNat ≤ 122) || (48 ≤ c.toNat && c.toNat ≤ 57)

/-- Python `str.lower` for ASCII data: lowercase every character. -/
def pyLower (s : String) : String :=
  String.mk (s.data.map Char.toLower)

/-- Python `str.strip` for ASCII data: drop leading and trailing
whitespace. -/
def pyStrip (s : String) : String :=
  String.mk (((s.data.dropWhile Char.isWhitespace).reverse.dropWhile
    Char.isWhitespace).reverse)

/-- Embedding of `_normalize_token`: lowercase the string and drop every
character outside `[a-z0-9]`. -/
def normalize_token (value : String) : String :=
  String.mk ((pyLower value).data.filter isTokenChar)

/-- Append a (token, header) observation to the association list that models
the `defaultdict(list)` of `normalize_headers`: an existing token has the
header appended to its list, a new token is appended at the end. -/
def insertHeader (m : List (String × List String)) (token : String)
    (header : String) : List (String × List String) :=
  match m with
  | [] => [(token, [header])]
  | (t, hs) :: rest =>
    if t == token then (t, hs ++ [header]) :: rest
    else (t, hs) :: insertHeader rest token header

/-- Accumulator-passing loop of `normalize_headers`: `none` models a `None`
column, which is skipped; empty-after-trim columns are skipped; otherwise the
trimmed header is appended under the token of its trimmed form. -/
def normHeadersAux (acc : List (String × List String)) :
    List (Option String) → List (String × List String)
  | [] => acc
  | none :: rest => normHeadersAux acc rest
  | some column :: rest =>
    let trimmed := pyStrip column
    if trimmed.isEmpty then normHeadersAux acc rest
    else normHeadersAux (insertHeader acc (normalize_token trimmed) trimmed) rest

/-- Embedding of `normalize_headers`: mapping of normalized token to the list
of (trimmed) column names, in first-occurrence order. -/
def normalize_headers (columns : List (Option String)) :
    List (String × List String) :=
  normHeadersAux [] columns

/-- Lookup of a token in the normalized header map (`token in header_map`
plus `header_map[token]`). -/
def headerLookup (m : List (String × List String)) (token : String) :
    Option (List String) :=
  match m.find? (fun p => p.1 == token) with
  | some p => some p.2
  | none => none

/-- Embedding of `_match_alias`: first alias whose token is present in the
header map wins and yields the first header recorded under that token. -/
def match_alias (alias_list : List String)
    (header_map : List (String × List String)) : Option String :=
  match alias_list with
  | [] => none
  | a :: rest =>
    match headerLookup header_map (normalize_token a) with
    | some hs => hs.head?
    | none => match_alias rest header_map

/-- Python truthiness of an `Optional[str]` value: `None` and `""` are
falsy, every other string is truthy. -/
def pyTruthy : Option String → Bool
  | none => false
  | some s => !s.isEmpty

/-- ASCII uppercase letter, the regex class `[A-Z]`. -/
def isUpperChar (c : Char) : Bool :=
  65 ≤ c.toNat && c.toNat ≤ 90

/-- ASCII lowercase letter or digit, the regex class `[a-z0-9]`. -/
def isLowerDigitChar (c : Char) : Bool :=
  (97 ≤ c.toNat && c.toNat ≤ 122) || (48 ≤ c.toNat && c.toNat ≤ 57)

/-- Scanner state for the camelCase tokenizer modelling
`re.findall(r"[A-Z]+[a-z0-9]*|[a-z0-9]+", name)`. -/
inductive CamState where
  | start : CamState
  | upperRun : List Char → CamState
  | tailRun : List Char → CamState

/-- One step of the camelCase tokenizer. `upperRun` is inside the `[A-Z]+`
part of the first alternative, `tailRun` is inside a `[a-z0-9]*`/`[a-z0-9]+`
run; any other character terminates the current match. -/
def camStep : List (List Char) × CamState → Char → List (List Char) × CamState
  | (acc, .start), c =>
    if isUpperChar c then (acc, .upperRun [c])
    else if isLowerDigitChar c then (acc, .tailRun [c])
    else (acc, .start)
  | (acc, .upperRun t), c =>
    if isUpperChar c then (acc, .upperRun (t ++ [c]))
    else if isLowerDigitChar c then (acc, .tailRun (t ++ [c]))
    else (acc ++ [t], .start)
  | (acc, .tailRun t), c =>
    if isUpperChar c then (acc ++ [t], .upperRun [c])
    else if isLowerDigitChar c then (acc, .tailRun (t ++ [c]))
    else (acc ++ [t], .start)

/-- Embedding of `re.findall(r"[A-Z]+[a-z0-9]*|[a-z0-9]+", name)`: greedy
left-to-right tokenization into uppercase-led or lowercase-digit runs. -/
def camelTokens (name : String) : List String :=
  let scan := name.data.foldl camStep ([], .start)
  let finished :=
    match scan.2 with
    | .start => scan.1
    | .upperRun t => scan.1 ++ [t]
    | .tailRun t => scan.1 ++ [t]
  finished.map String.mk

/-- Embedding of the nested `add` helper of `alias_variants`: strip the
value, then append it if it is nonempty and not already present. -/
def addVariant (variants : List String) (value : String) : List String :=
  let value := pyStrip value
  if !value.isEmpty && !variants.contains value then variants ++ [value]
  else variants

/-- Remove every occurrence of a character, modelling
`str.replace(ch, "")`. -/
def removeChar (ch : Char) (s : String) : String :=
  String.mk (s.data.filter (fun c => !(c == ch)))

/-- Embedding of `alias_variants`: the canonical name, its space-stripped,
lowercased and lowercased-space-stripped forms, the snake_case rendering of
its camelCase tokens with and without underscores, then each extra together
with its lowercased and underscore-stripped forms; deduplicated in
first-insertion order. The Python default `extras=None` is modelled by
passing `[]`. -/
def alias_variants (name : String) (extras : List String) : List String :=
  let v := addVariant [] name
  let v := addVariant v (removeChar ' ' name)
  let v := addVariant v (pyLower name)
  let v := addVariant v (pyLower (removeChar ' ' name))
  let tokens := camelTokens name
  let v :=
    if tokens.isEmpty then v
    else
      let snake := String.intercalate "_" (tokens.map pyLower)
      addVariant (addVariant v snake) (removeChar '_' snake)
  extras.foldl
    (fun v extra =>
      addVariant (addVariant (addVariant v extra) (pyLower extra))
        (removeChar '_' extra))
    v

/-- Embedding of the frozen dataclass `DatasetSpec` from `schemas.py`. -/
structure DatasetSpec where
  key : String
  display_name : String
  filename_prefixes : List String
  required_fields : List String
  field_aliases : List (String × List String)
  identifying_fields : List String
deriving DecidableEq

/-- Embedding of `DatasetSpec.alias_for`: the registered alias list of a
field, defaulting to the singleton of the field itself. -/
def DatasetSpec.alias_for (spec : DatasetSpec) (f : String) : List String :=
  match spec.field_aliases.find? (fun p => p.1 == f) with
  | some p => p.2
  | none => [f]

/-- Embedding of `INSTRUMENT_REFERENCE_ALIASES`. -/
def INSTRUMENT_REFERENCE_ALIASES : List (String × List String) :=
  [ ("instrumentIdentifier", alias_variants "instrumentIdentifier" ["instrument_id"]),
    ("portfolioIdentifier", alias_variants "portfolioIdentifier" ["portfolio_id"]),
    ("reportingDate", alias_variants "reportingDate" ["reporting_date"]),
    ("asOfDate", alias_variants "asOfDate" ["as_of_date"]),
    ("borrowerZipCode", alias_variants "borrowerZipCode" ["borrower_zip_code", "borrower_zip"]),
    ("collateralZipCode", alias_variants "collateralZipCode" ["collateral_zip_code", "collateral_zip"]),
    ("borrowerState", alias_variants "borrowerState" ["borrower_state"]),
    ("collateralState", alias_variants "collateralState" ["collateral_state"]),
    ("geographyCode", alias_variants "geographyCode" ["geography_code", "cbsa_code", "msa_code"]),
    ("occupancyStatus", alias_variants "occupancyStatus" ["occupancy_status"]),
    ("propertyStatus", alias_variants "propertyStatus" ["property_status"]),
    ("loanPropertyGroupIdentifier", alias_variants "loanPropertyGroupIdentifier" ["loan_property_group_identifier", "property_group_id"]),
    ("assetClass", alias_variants "assetClass" ["asset_class"]),
    ("dealName", alias_variants "dealName" ["deal_name"]),
    ("cusip", alias_variants "cusip" ["cusip_number"]),
    ("obligorName", alias_variants "obligorName" ["obligor_name", "borrowerName"]) ]

/-- Embedding of `INSTRUMENT_RISK_METRIC_ALIASES`. -/
def INSTRUMENT_RISK_METRIC_ALIASES : List (String × List String) :=
  [ ("instrumentIdentifier", alias_variants "instrumentIdentifier" ["instrument_id"]),
    ("reportingDate", alias_variants "reportingDate" ["reporting_date"]),
    ("asOfDate", alias_variants "asOfDate" ["as_of_date"]),
    ("annualizedCumulativePD", alias_variants "annualizedCumulativePD" ["annualized_pd"]),
    ("forwardPD", alias_variants "forwardPD" ["forward_pd"]),
    ("cumulativePD", alias_variants "cumulativePD" ["cumulative_pd"]),
    ("marginalPD", alias_variants "marginalPD" ["marginal_pd"]),
    ("maturityRiskPD", alias_variants "maturityRiskPD" ["maturity_risk_pd"]),
    ("lgd", alias_variants "lgd" ["lossGivenDefault"]),
    ("lossRateAnnualized", alias_variants "lossRateAnnualized" ["loss_rate_annualized"]),
    ("lossRateCumulative", alias_variants "lossRateCumulative" ["loss_rate_cumulative"]),
    ("ead", alias_variants "ead" ["exposureAtDefault"]),
    ("ccf", alias_variants "ccf" []),
    ("ugd", alias_variants "ugd" []),
    ("prepaymentRate", alias_variants "prepaymentRate" ["prepayment_rate"]),
    ("forwardPrepaymentRate", alias_variants "forwardPrepaymentRate" ["forward_prepayment_rate"]),
    ("cumulativePrepaymentRate", alias_variants "cumulativePrepaymentRate" ["cumulative_prepayment_rate"]),
    ("expectedCreditLossAmount", alias_variants "expectedCreditLossAmount" ["expected_credit_loss_amount"]),
    ("exposure", alias_variants "exposure" []) ]

/-- Embedding of `INSTRUMENT_RESULT_ALIASES`. -/
def INSTRUMENT_RESULT_ALIASES : List (String × List String) :=
  [ ("instrumentIdentifier", alias_variants "instrumentIdentifier" ["instrument_id"]),
    ("portfolioIdentifier", alias_variants "portfolioIdentifier" ["portfolio_id"]),
    ("reportingDate", alias_variants "reportingDate" ["reporting_date"]),
    ("asOfDate", alias_variants "asOfDate" ["as_of_date"]),
    ("riskClassification", alias_variants "riskClassification" ["risk_classification"]),
    ("longTermRatingFromStageAllocation", alias_variants "longTermRatingFromStageAllocation" ["long_term_rating_stage_allocation"]),
    ("longTermRatingFromStageAllocationScenarioBased", alias_variants "longTermRatingFromStageAllocationScenarioBased" ["long_term_rating_stage_allocation_scenario", "long_term_rating_scenario"]),
    ("ifrsEADAmount", alias_variants "ifrsEADAmount" ["ifrs_ead_amount"]),
    ("lossRateDelta", alias_variants "lossRateDelta" ["loss_rate_delta"]),
    ("lossAllowanceDelta", alias_variants "lossAllowanceDelta" ["loss_allowance_delta"]),
    ("ifrsLossRateUnadjusted", alias_variants "ifrsLossRateUnadjusted" ["ifrs_loss_rate_unadjusted"]),
    ("lossAllowanceDeltaInInstrumentCurrency", alias_variants "lossAllowanceDeltaInInstrumentCurrency" ["loss_allowance_delta_in_instrument_currency"]) ]

/-- Embedding of `INSTRUMENT_CASHFLOW_ALIASES`. -/
def INSTRUMENT_CASHFLOW_ALIASES : List (String × List String) :=
  [ ("instrumentIdentifier", alias_variants "instrumentIdentifier" ["instrument_id"]),
    ("portfolioIdentifier", alias_variants "portfolioIdentifier" ["portfolio_id"]),
    ("cashFlowDate", alias_variants "cashFlowDate" ["cash_flow_date"]),
    ("reportingDate", alias_variants "reportingDate" ["reporting_date"]),
    ("asOfDate", alias_variants "asOfDate" ["as_of_date"]),
    ("beginningUnpaidPrincipalBalance", alias_variants "beginningUnpaidPrincipalBalance" ["beginning_principal_balance"]),
    ("grossCarryingAmount", alias_variants "grossCarryingAmount" ["gross_carrying_amount"]),
    ("principalPayment", alias_variants "principalPayment" ["principal_payment"]),
    ("interestPayment", alias_variants "interestPayment" ["interest_payment"]),
    ("prepaymentAmount", alias_variants "prepaymentAmount" ["prepayment_amount"]),
    ("defaultAmount", alias_variants "defaultAmount" ["default_amount"]),
    ("principalRecoveryAmount", alias_variants "principalRecoveryAmount" ["principal_recovery_amount"]),
    ("eadAmount", alias_variants "eadAmount" ["ead_amount"]),
    ("forwardPD", alias_variants "forwardPD" ["forward_pd"]),
    ("cumulativePD", alias_variants "cumulativePD" ["cumulative_pd"]),
    ("lgd", alias_variants "lgd" []),
    ("discountFactorForAllowance", alias_variants "discountFactorForAllowance" ["discount_factor_allowance"]),
    ("discountFactorForFairValue", alias_variants "discountFactorForFairValue" ["discount_factor_fair_value"]) ]

/-- Embedding of `CHARGEOFF_ALIASES`. -/
def CHARGEOFF_ALIASES : List (String × List String) :=
  [ ("instrumentIdentifier", alias_variants "instrumentIdentifier" ["instrument_id"]),
    ("chargeOffDate", alias_variants "chargeOffDate" ["charge_off_date", "chargeoff_date", "reportingDate", "asOfDate"]),
    ("reportingDate", alias_variants "reportingDate" ["reporting_date"]),
    ("asOfDate", alias_variants "asOfDate" ["as_of_date"]),
    ("netChargeOffAmount", alias_variants "netChargeOffAmount" ["net_charge_off_amount"]),
    ("chargeOffAmount", alias_variants "chargeOffAmount" ["charge_off_amount"]) ]

/-- Embedding of `INSTRUMENT_REFERENCE_SPEC`. -/
def INSTRUMENT_REFERENCE_SPEC : DatasetSpec :=
  { key := "instrument_reference"
    display_name := "Instrument Reference"
    filename_prefixes := ["instrumentreference", "reference"]
    required_fields := ["instrumentIdentifier", "portfolioIdentifier"]
    field_aliases := INSTRUMENT_REFERENCE_ALIASES
    identifying_fields :=
      ["reportingDate", "asOfDate", "borrowerZipCode", "collateralZipCode",
       "borrowerState", "collateralState", "geographyCode", "occupancyStatus",
       "propertyStatus", "loanPropertyGroupIdentifier", "assetClass"] }

/-- Embedding of `INSTRUMENT_RISK_METRIC_SPEC`. -/
def INSTRUMENT_RISK_METRIC_SPEC : DatasetSpec :=
  { key := "instrument_risk_metric"
    display_name := "Instrument Risk Metric"
    filename_prefixes := ["instrumentriskmetric", "riskmetric", "risk_metrics"]
    required_fields := ["instrumentIdentifier", "reportingDate"]
    field_aliases := INSTRUMENT_RISK_METRIC_ALIASES
    identifying_fields :=
      ["annualizedCumulativePD", "forwardPD", "cumulativePD", "marginalPD",
       "maturityRiskPD", "lgd", "ead"] }

/-- Embedding of `INSTRUMENT_RESULT_SPEC`. -/
def INSTRUMENT_RESULT_SPEC : DatasetSpec :=
  { key := "instrument_result"
    display_name := "Instrument Result"
    filename_prefixes := ["instrumentresult", "result"]
    required_fields := ["instrumentIdentifier", "portfolioIdentifier"]
    field_aliases := INSTRUMENT_RESULT_ALIASES
    identifying_fields :=
      ["reportingDate", "asOfDate", "riskClassification",
       "longTermRatingFromStageAllocation",
       "longTermRatingFromStageAllocationScenarioBased", "ifrsEADAmount",
       "lossAllowanceDelta"] }

/-- Embedding of `INSTRUMENT_CASHFLOW_SPEC`. -/
def INSTRUMENT_CASHFLOW_SPEC : DatasetSpec :=
  { key := "instrument_cashflow"
    display_name := "Instrument Cash Flow"
    filename_prefixes := ["instrumentcashflow", "cashflow", "cash_flow"]
    required_fields := ["instrumentIdentifier", "portfolioIdentifier", "cashFlowDate"]
    field_aliases := INSTRUMENT_CASHFLOW_ALIASES
    identifying_fields :=
      ["reportingDate", "asOfDate", "beginningUnpaidPrincipalBalance",
       "grossCarryingAmount", "principalPayment", "interestPayment",
       "prepaymentAmount", "defaultAmount", "principalRecoveryAmount",
       "eadAmount", "forwardPD", "cumulativePD", "lgd"] }

/-- Embedding of `CHARGEOFF_SPEC`. -/
def CHARGEOFF_SPEC : DatasetSpec :=
  { key := "chargeoff"
    display_name := "Charge-off"
    filename_prefixes := ["chargeoff", "charge_off", "default"]
    required_fields := ["instrumentIdentifier"]
    field_aliases := CHARGEOFF_ALIASES
    identifying_fields := ["chargeOffDate", "netChargeOffAmount", "chargeOffAmount"] }

/-- Embedding of the `DATASET_SPECS` dict: its values in insertion order
(the `key` fields are pairwise distinct, so the dict comprehension keeps all
five specs in declaration order). -/
def DATASET_SPECS : List DatasetSpec :=
  [INSTRUMENT_REFERENCE_SPEC, INSTRUMENT_RISK_METRIC_SPEC,
   INSTRUMENT_RESULT_SPEC, INSTRUMENT_CASHFLOW_SPEC, CHARGEOFF_SPEC]

/-- Python `pat.isPrefixOf s` on character lists, modelling
`str.startswith`. -/
def startsWithB (s pat : String) : Bool :=
  pat.data.isPrefixOf s.data

/-- Containment of `sub` as a contiguous sublist, modelling Python's
`sub in s` substring test. -/
def hasSublist (sub : List Char) : List Char → Bool
  | [] => sub.isEmpty
  | c :: rest => sub.isPrefixOf (c :: rest) || hasSublist sub rest

/-- Python substring test `pat in s` on strings. -/
def containsSubstr (s pat : String) : Bool :=
  hasSublist pat.data s.data

/-- Embedding of the filename-bonus block of `_evaluate_dataset`: 2 when the
lowercased file name starts with some declared filename hint, else 1 when it
contains one as a substring, else 0. -/
def filenameBonus (spec : DatasetSpec) (file_name : String) : Nat :=
  let lowercase_name := pyLower file_name
  if spec.filename_prefixes.any (fun p => startsWithB lowercase_name p) then 2
  else if spec.filename_prefixes.any (fun p => containsSubstr lowercase_name p) then 1
  else 0

/-- Embedding of the dict returned by `_evaluate_dataset`. -/
structure Evaluation where
  spec : DatasetSpec
  matched_required : List (String × String)
  matched_optional : List (String × String)
  missing_required : List (String × List String)
  score_required : Nat
  score_optional : Nat
  filename_bonus : Nat
  total_score : Nat
deriving DecidableEq

/-- Embedding of `_evaluate_dataset`: match every required and identifying
field through its alias list, apply the filename bonus, and score the spec.
The `if match:` truthiness checks of the source are modelled by
`pyTruthy`. -/
def evaluate_dataset (spec : DatasetSpec) (file_name : String)
    (header_map : List (String × List String)) : Evaluation :=
  let matched_required := spec.required_fields.filterMap (fun f =>
    let m := match_alias (spec.alias_for f) header_map
    if pyTruthy m then some (f, m.getD "") else none)
  let missing_required := spec.required_fields.filterMap (fun f =>
    let m := match_alias (spec.alias_for f) header_map
    if pyTruthy m then none else some (f, spec.alias_for f))
  let matched_optional := spec.identifying_fields.filterMap (fun f =>
    let m := match_alias (spec.alias_for f) header_map
    if pyTruthy m then some (f, m.getD "") else none)
  let filename_bonus := filenameBonus spec file_name
  let score_required := matched_required.length * 5
  let score_optional := matched_optional.length
  { spec := spec
    matched_required := matched_required
    matched_optional := matched_optional
    missing_required := missing_required
    score_required := score_required
    score_optional := score_optional
    filename_bonus := filename_bonus
    total_score := score_required + score_optional + filename_bonus }

/-- The sort key of the detection tie-break:
`(total_score, score_required, score_optional)`. -/
def lexKey (e : Evaluation) : Nat × Nat × Nat :=
  (e.total_score, e.score_required, e.score_optional)

/-- Strict lexicographic order on score triples, the order Python uses to
compare the sort-key tuples. -/
def lexLtB (a b : Nat × Nat × Nat) : Bool :=
  decide (a.1 < b.1) ||
    (decide (a.1 = b.1) &&
      (decide (a.2.1 < b.2.1) ||
        (decide (a.2.1 = b.2.1) && decide (a.2.2 < b.2.2))))

/-- Stable insertion used to model `list.sort(key=..., reverse=True)`: the
inserted element goes in front of the first element whose key is not
strictly greater, so equal keys keep their original relative order. -/
def insertDesc (e : Evaluation) : List Evaluation → List Evaluation
  | [] => [e]
  | x :: xs =>
    if lexLtB (lexKey e) (lexKey x) then x :: insertDesc e xs
    else e :: x :: xs

/-- Stable descending sort by `lexKey`, extensionally the Python stable sort
with `reverse=True`. -/
def sortDesc : List Evaluation → List Evaluation
  | [] => []
  | x :: xs => insertDesc x (sortDesc xs)

/-- Embedding of Python `max(items, key=f)` given a first element: a later
element replaces the current best only when its key is strictly greater, so
the first maximal element is kept. -/
def pyMaxBy (f : Evaluation → Nat) (best : Evaluation) :
    List Evaluation → Evaluation
  | [] => best
  | x :: xs => if f best < f x then pyMaxBy f x xs else pyMaxBy f best xs

/-- Embedding of the diagnostics dict built by `detect_file_profile`. -/
structure Diagnostics where
  dataset_key : String
  display_name : String
  matched_required : List (String × String)
  matched_optional : List (String × String)
  filename_bonus : Nat
  score : Nat
  header_sample : List String
deriving DecidableEq

/-- Diagnostics of the winning evaluation, including the first ten raw
headers as `header_sample`. -/
def mkDiagnostics (e : Evaluation) (sample_headers : List String) : Diagnostics :=
  { dataset_key := e.spec.key
    display_name := e.spec.display_name
    matched_required := e.matched_required
    matched_optional := e.matched_optional
    filename_bonus := e.filename_bonus
    score := e.total_score
    header_sample := sample_headers.take 10 }

/-- Embedding of the `missing_parts` string of the detection error:
`", ".join(f"{field} (candidates: {aliases})")`, falling back to
`"required headers"` when the join is empty. -/
def missingParts (e : Evaluation) : String :=
  let joined := String.intercalate ", "
    (e.missing_required.map (fun p =>
      p.1 ++ " (candidates: " ++ String.intercalate ", " p.2 ++ ")"))
  if joined.isEmpty then "required headers" else joined

/-- The `ValueError` message raised by `detect_file_profile` when no spec is
viable. -/
def detectionError (file_name : String) (e : Evaluation) : String :=
  "File '" ++ file_name ++ "' resembles '" ++ e.spec.display_name ++
    "' but is missing required headers: " ++ missingParts e ++ "."

/-- Evaluation of one spec against a file name and raw header row, as
performed inside `detect_file_profile`. -/
def evalOf (spec : DatasetSpec) (file_name : String)
    (sample_headers : List String) : Evaluation :=
  evaluate_dataset spec file_name (normalize_headers (sample_headers.map some))

/-- The list of per-spec evaluations computed by `detect_file_profile`, in
registry declaration order. -/
def evalList (file_name : String) (sample_headers : List String) :
    List Evaluation :=
  DATASET_SPECS.map (fun spec => evalOf spec file_name sample_headers)

/-- The viable evaluations: those whose matched required count equals the
declared required count. -/
def viableEvals (file_name : String) (sample_headers : List String) :
    List Evaluation :=
  (evalList file_name sample_headers).filter (fun e =>
    e.matched_required.length == e.spec.required_fields.length)

/-- Embedding of `detect_file_profile`. A raised `ValueError` is modelled as
`Except.error` carrying the message; on success the winning key and its
diagnostics are returned. The `"no dataset specs registered"` branch models
`max` on an empty sequence and is unreachable for the five-spec registry. -/
def detect_file_profile (file_name : String) (sample_headers : List String) :
    Except String (String × Diagnostics) :=
  match sortDesc (viableEvals file_name sample_headers) with
  | best :: _ => .ok (best.spec.key, mkDiagnostics best sample_headers)
  | [] =>
    match evalList file_name sample_headers with
    | [] => .error "no dataset specs registered"
    | e0 :: rest =>
      .error (detectionError file_name (pyMaxBy (fun e => e.total_score) e0 rest))

/-- Embedding of the dataclass `HeaderExpectation` from
`components/inputs.py`; the Python field `match` is spelled `match_mode`
because `match` is a Lean keyword. -/
structure HeaderExpectation where
  name : String
  candidates : List String
  required : Bool
  match_mode : String
  note : Option String
deriving DecidableEq

/-- Embedding of the nested `find_column` helper of `_match_columns`: first
alias of the canonical field whose token occurs in the header map, yielding
the first header stored under that token (the same loop as
`_match_alias`). -/
def find_column (spec : DatasetSpec) (header_map : List (String × List String))
    (canonical : String) : Option String :=
  match_alias (spec.alias_for canonical) header_map

/-- The `for ... else` loop of the `"any"` branch of `_match_columns`: first
candidate whose column is truthy, with its column. -/
def anyFirst (spec : DatasetSpec) (header_map : List (String × List String)) :
    List String → Option (String × String)
  | [] => none
  | canonical :: rest =>
    let column := find_column spec header_map canonical
    if pyTruthy column then some (canonical, column.getD "")
    else anyFirst spec header_map rest

/-- Embedding of `_match_columns`: the `"all"` branch folds over candidates
keeping per-candidate selections and misses, the other branch takes the
first truthy candidate or, when none and the expectation is required,
reports the `" / "`-joined candidate list as one missing descriptor. -/
def match_columns (spec : DatasetSpec) (columns : List String)
    (expectation : HeaderExpectation) :
    List (String × String) × List String :=
  let header_map := normalize_headers (columns.map some)
  if expectation.match_mode == "all" then
    expectation.candidates.foldl
      (fun acc canonical =>
        let column := find_column spec header_map canonical
        if pyTruthy column then (acc.1 ++ [(canonical, column.getD "")], acc.2)
        else (acc.1, acc.2 ++ [canonical]))
      ([], [])
  else
    match anyFirst spec header_map expectation.candidates with
    | some (canonical, column) => ([(canonical, column)], [])
    | none =>
      ([], if expectation.required
           then [String.intercalate " / " expectation.candidates]
           else [])

/-- Content of one uploaded file as seen by `load_uploaded_files` through
pandas: empty bytes, bytes that fail CSV parsing (with the wrapped exception
text), or a parsed table with its header row and row count. -/
inductive FileContent where
  | empty : FileContent
  | unparseable : String → FileContent
  | table : List String → Nat → FileContent
deriving DecidableEq

/-- Embedding of the `LoadedFile` dataclass; the dataframe is represented by
its (whitespace-stripped) column list and row count, which together with the
diagnostics is all the downstream grouping observes. -/
structure LoadedFile where
  dataset_key : String
  file_name : String
  columns : List String
  row_count : Nat
  diagnostics : Diagnostics
deriving DecidableEq

/-- Embedding of `loaded.setdefault(dataset_key, []).append(record)` on the
insertion-ordered dict of groups. -/
def appendGroup (m : List (String × List LoadedFile)) (k : String)
    (r : LoadedFile) : List (String × List LoadedFile) :=
  match m with
  | [] => [(k, [r])]
  | (k0, rs) :: rest =>
    if k0 == k then (k0, rs ++ [r]) :: rest
    else (k0, rs) :: appendGroup rest k r

/-- The loop of `load_uploaded_files` with its accumulated groups: empty
files are skipped with a warning, an unreadable file raises, a detection
failure propagates, and a detected file is appended to its dataset group. -/
def loadFilesFrom (loaded : List (String × List LoadedFile)) :
    List (String × FileContent) → Except String (List (String × List LoadedFile))
  | [] => .ok loaded
  | (_, .empty) :: rest => loadFilesFrom loaded rest
  | (file_name, .unparseable exc) :: _ =>
    .error ("Unable to read CSV headers for file '" ++ file_name ++ "': " ++ exc)
  | (file_name, .table headers rows) :: rest =>
    match detect_file_profile file_name headers with
    | .error e => .error e
    | .ok (dataset_key, diagnostics) =>
      let record : LoadedFile :=
        { dataset_key := dataset_key
          file_name := file_name
          columns := headers.map pyStrip
          row_count := rows
          diagnostics := diagnostics }
      loadFilesFrom (appendGroup loaded dataset_key record) rest

/-- Embedding of `load_uploaded_files`: fold the uploaded files, in order,
into groups keyed by detected dataset; a raised `ValueError` is modelled as
`Except.error`. -/
def load_uploaded_files (files : List (String × FileContent)) :
    Except String (List (String × List LoadedFile)) :=
  loadFilesFrom [] files

/-- A file the loader skips: empty content. -/
def fileSkippedB (f : String × FileContent) : Bool :=
  match f.2 with
  | .empty => true
  | _ => false

/-- A file the loader classifies and loads: parseable content whose header
row detects some dataset profile. -/
def fileLoadsB (f : String × FileContent) : Bool :=
  match f.2 with
  | .table headers _ =>
    match detect_file_profile f.1 headers with
    | .ok _ => true
    | .error _ => false
  | _ => false

/-- A file whose processing raises: neither skipped nor loadable. -/
def fileFailsB (f : String × FileContent) : Bool :=
  !fileSkippedB f && !fileLoadsB f

/-- Whether a grouping contains a record for the given file name. -/
def groupingHasFile (g : List (String × List LoadedFile)) (name : String) : Bool :=
  g.any (fun p => p.2.any (fun r => r.file_name == name))

/-- Whether an `Except` result is a success. -/
def exceptOk {α : Type} : Except String α → Bool
  | .ok _ => true
  | .error _ => false

theorem lexLtB_irrefl (a : Nat × Nat × Nat) : lexLtB a a = false := by
  simp [lexLtB]

theorem lexLtB_asymm {a b : Nat × Nat × Nat} (h : lexLtB a b = true) :
    lexLtB b a = false := by
  rcases a with ⟨a1, a2, a3⟩
  rcases b with ⟨b1, b2, b3⟩
  simp only [lexLtB, Bool.or_eq_true, Bool.and_eq_true, decide_eq_true_eq,
    Bool.or_eq_false_iff, Bool.and_eq_false_iff, decide_eq_false_iff_not] at h ⊢
  omega

theorem lexLtB_false_trans {a b c : Nat × Nat × Nat}
    (hab : lexLtB a b = false) (hbc : lexLtB b c = false) :
    lexLtB a c = false := by
  rcases a with ⟨a1, a2, a3⟩
  rcases b with ⟨b1, b2, b3⟩
  rcases c with ⟨c1, c2, c3⟩
  simp only [lexLtB, Bool.or_eq_false_iff, Bool.and_eq_false_iff,
    decide_eq_false_iff_not] at hab hbc ⊢
  omega

theorem insertDesc_ne_nil (e : Evaluation) (l : List Evaluation) :
    insertDesc e l ≠ [] := by
  cases l with
  | nil => simp [insertDesc]
  | cons x xs =>
    simp only [insertDesc]
    split <;> simp

theorem sortDesc_eq_nil_iff (l : List Evaluation) : sortDesc l = [] ↔ l = [] := by
  cases l with
  | nil => simp [sortDesc]
  | cons x xs =>
    simp only [sortDesc]
    constructor
    · intro h
      exact absurd h (insertDesc_ne_nil x (sortDesc xs))
    · intro h
      exact absurd h (List.cons_ne_nil x xs)

theorem mem_insertDesc {x e : Evaluation} {l : List Evaluation} :
    x ∈ insertDesc e l ↔ x = e ∨ x ∈ l := by
  induction l with
  | nil => simp [insertDesc]
  | cons y ys ih =>
    simp only [insertDesc]
    split
    · simp only [List.mem_cons, ih]
      tauto
    · simp only [List.mem_cons]

theorem mem_sortDesc {x : Evaluation} {l : List Evaluation} :
    x ∈ sortDesc l ↔ x ∈ l := by
  induction l with
  | nil => simp [sortDesc]
  | cons y ys ih =>
    simp only [sortDesc, mem_insertDesc, ih, List.mem_cons]

theorem sortDesc_head_dom {l : List Evaluation} {b : Evaluation}
    {t : List Evaluation} (h : sortDesc l = b :: t) :
    ∀ x ∈ l, lexLtB (lexKey b) (lexKey x) = false := by
  induction l generalizing b t with
  | nil => simp [sortDesc] at h
  | cons a l' ih =>
    rw [sortDesc] at h
    cases hs : sortDesc l' with
    | nil =>
      rw [hs] at h
      simp only [insertDesc] at h
      obtain ⟨rfl, rfl⟩ := List.cons.inj h
      have hl' : l' = [] := (sortDesc_eq_nil_iff l').mp hs
      subst hl'
      intro x hx
      rcases List.mem_singleton.mp hx with rfl
      exact lexLtB_irrefl _
    | cons x0 t0 =>
      rw [hs] at h
      rw [insertDesc] at h
      have hd : ∀ y ∈ l', lexLtB (lexKey x0) (lexKey y) = false := ih hs
      by_cases hlt : lexLtB (lexKey a) (lexKey x0) = true
      · rw [if_pos hlt] at h
        obtain ⟨rfl, -⟩ := List.cons.inj h
        intro x hx
        rcases List.mem_cons.mp hx with rfl | hx'
        · exact lexLtB_asymm hlt
        · exact hd x hx'
      · rw [if_neg hlt] at h
        obtain ⟨rfl, -⟩ := List.cons.inj h
        have hfa : lexLtB (lexKey a) (lexKey x0) = false :=
          Bool.eq_false_iff.mpr hlt
        intro x hx
        rcases List.mem_cons.mp hx with rfl | hx'
        · exact lexLtB_irrefl _
        · exact lexLtB_false_trans hfa (hd x hx')

theorem pyMaxBy_mem (f : Evaluation → Nat) (b : Evaluation)
    (l : List Evaluation) : pyMaxBy f b l = b ∨ pyMaxBy f b l ∈ l := by
  induction l generalizing b with
  | nil => left; rfl
  | cons x xs ih =>
    rw [pyMaxBy]
    split
    · rcases ih x with h | h
      · right; rw [h]; exact List.mem_cons_self _ _
      · right; exact List.mem_cons_of_mem _ h
    · rcases ih b with h | h
      · left; exact h
      · right; exact List.mem_cons_of_mem _ h

theorem pyMaxBy_ge (f : Evaluation → Nat) (b : Evaluation)
    (l : List Evaluation) :
    f b ≤ f (pyMaxBy f b l) ∧ ∀ x ∈ l, f x ≤ f (pyMaxBy f b l) := by
  induction l generalizing b with
  | nil => exact ⟨Nat.le_refl _, by simp⟩
  | cons x xs ih =>
    rw [pyMaxBy]
    split
    case isTrue hlt =>
      obtain ⟨h1, h2⟩ := ih x
      refine ⟨Nat.le_trans (Nat.le_of_lt hlt) h1, ?_⟩
      intro y hy
      rcases List.mem_cons.mp hy with rfl | hy'
      · exact h1
      · exact h2 y hy'
    case isFalse hnlt =>
      obtain ⟨h1, h2⟩ := ih b
      refine ⟨h1, ?_⟩
      intro y hy
      rcases List.mem_cons.mp hy with rfl | hy'
      · exact Nat.le_trans (Nat.le_of_not_lt hnlt) h1
      · exact h2 y hy'

theorem pyMaxBy_first (f : Evaluation → Nat) (b : Evaluation)
    (l : List Evaluation) :
    ∃ pre post, b :: l = pre ++ pyMaxBy f b l :: post ∧
      ∀ x ∈ pre, f x < f (pyMaxBy f b l) := by
  induction l generalizing b with
  | nil => exact ⟨[], [], rfl, by simp⟩
  | cons x xs ih =>
    rw [pyMaxBy]
    split
    case isTrue hlt =>
      obtain ⟨pre, post, heq, hpre⟩ := ih x
      refine ⟨b :: pre, post, by rw [List.cons_append, ← heq], ?_⟩
      intro y hy
      rcases List.mem_cons.mp hy with rfl | hy'
      · exact Nat.lt_of_lt_of_le hlt (pyMaxBy_ge f x xs).1
      · exact hpre y hy'
    case isFalse hnlt =>
      obtain ⟨pre, post, heq, hpre⟩ := ih b
      cases pre with
      | nil =>
        simp only [List.nil_append] at heq
        obtain ⟨hb, hpost⟩ := List.cons.inj heq
        refine ⟨[], x :: xs, ?_, by simp⟩
        rw [List.nil_append, ← hb]
      | cons p pre' =>
        simp only [List.cons_append] at heq
        obtain ⟨hp, hxs⟩ := List.cons.inj heq
        refine ⟨b :: x :: pre', post, ?_, ?_⟩
        · conv_lhs => rw [hxs]
          simp
        · intro y hy
          have hbm : f b < f (pyMaxBy f b xs) := by
            have := hpre p (List.mem_cons_self _ _)
            rwa [← hp] at this
          rcases List.mem_cons.mp hy with rfl | hy'
          · exact hbm
          · rcases List.mem_cons.mp hy' with rfl | hy''
            · exact Nat.lt_of_le_of_lt (Nat.le_of_not_lt hnlt) hbm
            · exact hpre y (List.mem_cons_of_mem _ hy'')

theorem headerLookup_cons (pk : String) (pv : List String)
    (rest : List (String × List String)) (t : String) :
    headerLookup ((pk, pv) :: rest) t =
      if pk = t then some pv else headerLookup rest t := by
  by_cases h : pk = t
  · simp [headerLookup, List.find?, h]
  · have hb : (pk == t) = false := beq_eq_false_iff_ne.mpr h
    simp [headerLookup, List.find?, hb, h]

theorem headerLookup_insertHeader (m : List (String × List String))
    (k v t : String) :
    headerLookup (insertHeader m k v) t =
      if t = k then some ((headerLookup m k).getD [] ++ [v])
      else headerLookup m t := by
  induction m with
  | nil =>
    simp only [insertHeader]
    rw [headerLookup_cons]
    by_cases h : t = k
    · subst h
      simp [headerLookup]
    · have h' : ¬ k = t := fun he => h he.symm
      simp [headerLookup, h, h']
  | cons p rest ih =>
    obtain ⟨pk, pv⟩ := p
    by_cases hpk : pk = k
    · have hb : (pk == k) = true := beq_iff_eq.mpr hpk
      simp only [insertHeader, hb, if_true]
      rw [headerLookup_cons]
      by_cases h : t = k
      · have h1 : pk = t := by rw [hpk, h]
        rw [if_pos h1, if_pos h, headerLookup_cons, if_pos hpk]
        simp
      · have h1 : ¬ pk = t := fun he => h (by rw [← he, hpk])
        rw [if_neg h1, if_neg h, headerLookup_cons, if_neg h1]
    · have hb : (pk == k) = false := beq_eq_false_iff_ne.mpr hpk
      simp only [insertHeader, hb, Bool.false_eq_true, if_false]
      rw [headerLookup_cons]
      by_cases h1 : pk = t
      · have h2 : ¬ t = k := fun he => hpk (by rw [h1, he])
        rw [if_pos h1, if_neg h2, headerLookup_cons, if_pos h1]
      · rw [if_neg h1, ih]
        by_cases h2 : t = k
        · rw [if_pos h2, if_pos h2, headerLookup_cons, if_neg hpk]
        · rw [if_neg h2, if_neg h2, headerLookup_cons, if_neg h1]

/-- Modelled from the spec, as the refinement target of the header-normalizer
contract (spec section 4.1): among the input headers, drop the nulls and the
entries empty after trimming, trim the survivors, and keep, in first-seen
order, those whose token is `t`. -/
def specTokenList (columns : List (Option String)) (t : String) : List String :=
  ((columns.filterMap id).map pyStrip).filter
    (fun s => !s.isEmpty && (normalize_token s == t))

theorem normHeadersAux_lookup (columns : List (Option String)) :
    ∀ (acc : List (String × List String)) (t : String),
      headerLookup (normHeadersAux acc columns) t =
        match headerLookup acc t with
        | some l => some (l ++ specTokenList columns t)
        | none =>
          if (specTokenList columns t).isEmpty then none
          else some (specTokenList columns t) := by
  induction columns with
  | nil =>
    intro acc t
    simp only [normHeadersAux, specTokenList, List.filterMap_nil, List.map_nil,
      List.filter_nil]
    cases headerLookup acc t <;> simp
  | cons c rest ih =>
    intro acc t
    cases c with
    | none =>
      have hs : specTokenList (none :: rest) t = specTokenList rest t := by
        simp [specTokenList]
      simp only [normHeadersAux, hs]
      exact ih acc t
    | some s =>
      cases he : (pyStrip s).isEmpty with
      | true =>
        have hs : specTokenList (some s :: rest) t = specTokenList rest t := by
          simp [specTokenList, he]
        simp only [normHeadersAux, he, if_true, hs]
        exact ih acc t
      | false =>
        by_cases ht : normalize_token (pyStrip s) = t
        · have hs : specTokenList (some s :: rest) t =
              pyStrip s :: specTokenList rest t := by
            simp [specTokenList, he, ht]
          simp only [normHeadersAux, he, Bool.false_eq_true, if_false, hs]
          rw [ih (insertHeader acc (normalize_token (pyStrip s)) (pyStrip s)) t,
            headerLookup_insertHeader, if_pos ht.symm, ht]
          cases hacc : headerLookup acc t <;> simp
        · have hs : specTokenList (some s :: rest) t = specTokenList rest t := by
            simp [specTokenList, he, ht]
          simp only [normHeadersAux, he, Bool.false_eq_true, if_false, hs]
          rw [ih (insertHeader acc (normalize_token (pyStrip s)) (pyStrip s)) t,
            headerLookup_insertHeader, if_neg (fun hh => ht hh.symm)]

/-- C4 (amended): `normalize_headers` maps each token to the ordered list of
the TRIMMED forms of the original headers sharing that token: null, empty and
all-whitespace headers are dropped, a header's token is computed from its
trimmed form, and each per-token list preserves the first-seen input order.
(The claim's wording `the original headers` is amended to `the trimmed forms
of the original headers`.) -/
theorem normalize_headers_contract (columns : List (Option String)) (t : String) :
    headerLookup (normalize_headers columns) t =
      if (specTokenList columns t).isEmpty then none
      else some (specTokenList columns t) := by
  have h := normHeadersAux_lookup columns [] t
  exact h

/-- C4 counterexample: on the single raw header `" Loan ID "`, the per-token
list under token `loanid` holds the trimmed string `"Loan ID"`, not the
original raw header `" Loan ID "`, refuting the claim that the mapping's
lists consist of the original headers. -/
theorem normalize_headers_trims_cex :
    normalize_headers [some " Loan ID "] = [("loanid", ["Loan ID"])] ∧
    normalize_headers [some " Loan ID "] ≠ [("loanid", [" Loan ID "])] := by
  constructor
  · rfl
  · decide

theorem length_filterMap_ite {α β : Type} (p : α → Bool) (g : α → β)
    (l : List α) :
    (l.filterMap (fun a => if p a then some (g a) else none)).length =
      l.countP p := by
  induction l with
  | nil => rfl
  | cons a l ih =>
    by_cases h : p a = true
    · simp [List.filterMap_cons, h, List.countP_cons, ih]
    · have h' : p a = false := Bool.eq_false_iff.mpr h
      simp [List.filterMap_cons, h', List.countP_cons, ih]

theorem evaluate_total_score (spec : DatasetSpec) (file_name : String)
    (header_map : List (String × List String)) :
    (evaluate_dataset spec file_name header_map).total_score =
      5 * (evaluate_dataset spec file_name header_map).matched_required.length +
        (evaluate_dataset spec file_name header_map).matched_optional.length +
        (evaluate_dataset spec file_name header_map).filename_bonus := by
  simp only [evaluate_dataset]
  omega

theorem evaluate_viability_iff (spec : DatasetSpec) (file_name : String)
    (header_map : List (String × List String)) :
    (evaluate_dataset spec file_name header_map).matched_required.length =
        spec.required_fields.length ↔
      ∀ f ∈ spec.required_fields, ∃ h,
        (f, h) ∈ (evaluate_dataset spec file_name header_map).matched_required := by
  have hlen : (evaluate_dataset spec file_name header_map).matched_required.length =
      spec.required_fields.countP
        (fun f => pyTruthy (match_alias (spec.alias_for f) header_map)) := by
    simp only [evaluate_dataset]
    exact length_filterMap_ite _ _ _
  rw [hlen]
  constructor
  · intro hcount f hf
    have hall := List.countP_eq_length.mp hcount f hf
    refine ⟨(match_alias (spec.alias_for f) header_map).getD "", ?_⟩
    simp only [evaluate_dataset, List.mem_filterMap]
    exact ⟨f, hf, by simp [hall]⟩
  · intro hmem
    refine List.countP_eq_length.mpr ?_
    intro f hf
    obtain ⟨h, hm⟩ := hmem f hf
    simp only [evaluate_dataset, List.mem_filterMap] at hm
    obtain ⟨a, _, heq⟩ := hm
    by_cases hp : pyTruthy (match_alias (spec.alias_for a) header_map) = true
    · rw [if_pos hp] at heq
      obtain ⟨rfl, -⟩ := Prod.mk.injEq .. ▸ Option.some.inj heq
      exact hp
    · rw [if_neg hp] at heq
      exact absurd heq (Option.noConfusion)

/-- C2: for every file name and header row, each registry spec's evaluation
satisfies `total_score = 5 * |matched_required| + |matched_optional| +
filename_bonus`; the evaluation counts as viable (matched-required count
equals declared-required count) exactly when every declared required field
matched; and when at least one spec is viable, `detect_file_profile`
succeeds with a viable evaluation that is maximal under descending
lexicographic order on `(total_score, score_required, score_optional)` — in
particular, among viable evaluations with equal `total_score` the winner has
maximal `score_required`. -/
theorem detection_scoring_and_tiebreak (file_name : String)
    (sample_headers : List String) :
    (∀ spec ∈ DATASET_SPECS,
      (evalOf spec file_name sample_headers).total_score =
        5 * (evalOf spec file_name sample_headers).matched_required.length +
          (evalOf spec file_name sample_headers).matched_optional.length +
          (evalOf spec file_name sample_headers).filename_bonus ∧
      ((evalOf spec file_name sample_headers).matched_required.length =
          spec.required_fields.length ↔
        ∀ f ∈ spec.required_fields, ∃ h,
          (f, h) ∈ (evalOf spec file_name sample_headers).matched_required)) ∧
    (viableEvals file_name sample_headers ≠ [] →
      ∃ best, best ∈ viableEvals file_name sample_headers ∧
        detect_file_profile file_name sample_headers =
          .ok (best.spec.key, mkDiagnostics best sample_headers) ∧
        (∀ e ∈ viableEvals file_name sample_headers,
          lexLtB (lexKey best) (lexKey e) = false) ∧
        (∀ e ∈ viableEvals file_name sample_headers,
          e.total_score = best.total_score →
            e.score_required ≤ best.score_required)) := by
  constructor
  · intro spec _
    exact ⟨evaluate_total_score spec file_name
        (normalize_headers (sample_headers.map some)),
      evaluate_viability_iff spec file_name
        (normalize_headers (sample_headers.map some))⟩
  · intro hne
    obtain ⟨b, t, hsort⟩ : ∃ b t,
        sortDesc (viableEvals file_name sample_headers) = b :: t := by
      cases hs' : sortDesc (viableEvals file_name sample_headers) with
      | nil => exact absurd ((sortDesc_eq_nil_iff _).mp hs') hne
      | cons b t => exact ⟨b, t, rfl⟩
    refine ⟨b, ?_, ?_, ?_, ?_⟩
    · have hb : b ∈ sortDesc (viableEvals file_name sample_headers) := by
        rw [hsort]
        exact List.mem_cons_self _ _
      exact mem_sortDesc.mp hb
    · simp only [detect_file_profile]
      rw [hsort]
    · exact sortDesc_head_dom hsort
    · intro e he htot
      have h := sortDesc_head_dom hsort e he
      simp only [lexLtB, lexKey, Bool.or_eq_false_iff, Bool.and_eq_false_iff,
        decide_eq_false_iff_not] at h
      omega

theorem detection_scoring_and_tiebreak_witness :
    viableEvals "file.csv" ["Instrument ID", "Portfolio ID"] ≠ [] ∧
    exceptOk (detect_file_profile "file.csv" ["Instrument ID", "Portfolio ID"]) =
      true ∧
    (evalOf INSTRUMENT_REFERENCE_SPEC "file.csv" ["Instrument ID", "Portfolio ID"]).total_score =
      5 * (evalOf INSTRUMENT_REFERENCE_SPEC "file.csv" ["Instrument ID", "Portfolio ID"]).matched_required.length +
        (evalOf INSTRUMENT_REFERENCE_SPEC "file.csv" ["Instrument ID", "Portfolio ID"]).matched_optional.length +
        (evalOf INSTRUMENT_REFERENCE_SPEC "file.csv" ["Instrument ID", "Portfolio ID"]).filename_bonus := by
  have h2 := (detection_scoring_and_tiebreak "file.csv"
    ["Instrument ID", "Portfolio ID"]).2 (by decide)
  have h1 := ((detection_scoring_and_tiebreak "file.csv"
    ["Instrument ID", "Portfolio ID"]).1 INSTRUMENT_REFERENCE_SPEC
    (by decide)).1
  refine ⟨by decide, ?_, h1⟩
  obtain ⟨best, -, heq, -, -⟩ := h2
  rw [heq]
  rfl

theorem startsWithB_iff (s pat : String) :
    startsWithB s pat = true ↔ pat.data <+: s.data :=
  List.isPrefixOf_iff_prefix

theorem hasSublist_iff_infix (sub l : List Char) :
    hasSublist sub l = true ↔ sub <:+: l := by
  induction l with
  | nil =>
    simp only [hasSublist, List.isEmpty_iff, List.infix_nil]
  | cons c rest ih =>
    simp only [hasSublist, Bool.or_eq_true, List.isPrefixOf_iff_prefix, ih,
      List.infix_cons_iff]

theorem containsSubstr_iff (s pat : String) :
    containsSubstr s pat = true ↔ pat.data <:+: s.data :=
  hasSublist_iff_infix pat.data s.data

/-- C3: the filename bonus is 2 when the lowercased file name starts with
some declared filename hint of the spec, else 1 when it contains one as a
substring, else 0 — the tiers are mutually exclusive; and against
`INSTRUMENT_REFERENCE_SPEC` (whose hints include `instrumentreference` and
`reference`), `instrumentreference_2024.csv` scores 2,
`q1_reference_data.csv` scores 1, and `unrelated.csv` scores 0. -/
theorem filename_bonus_tiers :
    (∀ (spec : DatasetSpec) (file_name : String),
      ((∃ p ∈ spec.filename_prefixes, p.data <+: (pyLower file_name).data) →
        filenameBonus spec file_name = 2) ∧
      ((¬ ∃ p ∈ spec.filename_prefixes, p.data <+: (pyLower file_name).data) →
        (∃ p ∈ spec.filename_prefixes, p.data <:+: (pyLower file_name).data) →
        filenameBonus spec file_name = 1) ∧
      ((¬ ∃ p ∈ spec.filename_prefixes, p.data <:+: (pyLower file_name).data) →
        filenameBonus spec file_name = 0)) ∧
    "instrumentreference" ∈ INSTRUMENT_REFERENCE_SPEC.filename_prefixes ∧
    "reference" ∈ INSTRUMENT_REFERENCE_SPEC.filename_prefixes ∧
    filenameBonus INSTRUMENT_REFERENCE_SPEC "instrumentreference_2024.csv" = 2 ∧
    filenameBonus INSTRUMENT_REFERENCE_SPEC "q1_reference_data.csv" = 1 ∧
    filenameBonus INSTRUMENT_REFERENCE_SPEC "unrelated.csv" = 0 := by
  refine ⟨?_, by decide, by decide, by decide, by decide, by decide⟩
  intro spec file_name
  refine ⟨?_, ?_, ?_⟩
  · rintro ⟨p, hp, hpre⟩
    have hany : spec.filename_prefixes.any
        (fun p => startsWithB (pyLower file_name) p) = true :=
      List.any_eq_true.mpr ⟨p, hp, (startsWithB_iff _ _).mpr hpre⟩
    simp [filenameBonus, hany]
  · rintro hnot ⟨p, hp, hinf⟩
    have h1 : spec.filename_prefixes.any
        (fun p => startsWithB (pyLower file_name) p) = false := by
      refine Bool.eq_false_iff.mpr ?_
      intro hany
      obtain ⟨q, hq, hqs⟩ := List.any_eq_true.mp hany
      exact hnot ⟨q, hq, (startsWithB_iff _ _).mp hqs⟩
    have h2 : spec.filename_prefixes.any
        (fun p => containsSubstr (pyLower file_name) p) = true :=
      List.any_eq_true.mpr ⟨p, hp, (containsSubstr_iff _ _).mpr hinf⟩
    simp [filenameBonus, h1, h2]
  · intro hnot
    have h2 : spec.filename_prefixes.any
        (fun p => containsSubstr (pyLower file_name) p) = false := by
      refine Bool.eq_false_iff.mpr ?_
      intro hany
      obtain ⟨q, hq, hqs⟩ := List.any_eq_true.mp hany
      exact hnot ⟨q, hq, (containsSubstr_iff _ _).mp hqs⟩
    have h1 : spec.filename_prefixes.any
        (fun p => startsWithB (pyLower file_name) p) = false := by
      refine Bool.eq_false_iff.mpr ?_
      intro hany
      obtain ⟨q, hq, hqs⟩ := List.any_eq_true.mp hany
      exact hnot ⟨q, hq, ((startsWithB_iff _ _).mp hqs).isInfix⟩
    simp [filenameBonus, h1, h2]

theorem filename_bonus_tiers_witness :
    filenameBonus INSTRUMENT_REFERENCE_SPEC "reference_q3.csv" = 2 :=
  (filename_bonus_tiers.1 INSTRUMENT_REFERENCE_SPEC "reference_q3.csv").1
    ⟨"reference", by decide, by decide⟩

/-- C5: for every registry spec, every canonical field of its alias map, and
every alias in the generated alias list of that field, searching the field's
alias list against the normalized header map built from the one-header row
holding just that alias yields a (nonempty) matched header. -/
theorem alias_round_trip :
    ∀ spec ∈ DATASET_SPECS, ∀ pa ∈ spec.field_aliases,
      ∀ a ∈ spec.alias_for pa.1,
        pyTruthy (match_alias (spec.alias_for pa.1)
          (normalize_headers [some a])) = true := by
  decide

theorem alias_round_trip_witness :
    pyTruthy (match_alias
      (INSTRUMENT_REFERENCE_SPEC.alias_for "instrumentIdentifier")
      (normalize_headers [some "instrument_id"])) = true :=
  alias_round_trip INSTRUMENT_REFERENCE_SPEC (by decide)
    ("instrumentIdentifier",
      alias_variants "instrumentIdentifier" ["instrument_id"]) (by decide)
    "instrument_id" (by decide)

theorem pyTruthy_some_ne {s : String} (h : s ≠ "") : pyTruthy (some s) = true := by
  simp only [pyTruthy, Bool.not_eq_true']
  exact Bool.eq_false_iff.mpr (fun he => h ((String.isEmpty_iff _).mp he))

theorem anyFirst_none (spec : DatasetSpec)
    (header_map : List (String × List String)) (cands : List String)
    (h : ∀ c ∈ cands, pyTruthy (find_column spec header_map c) = false) :
    anyFirst spec header_map cands = none := by
  induction cands with
  | nil => rfl
  | cons c cs ih =>
    have hc := h c (List.mem_cons_self _ _)
    simp only [anyFirst, hc, Bool.false_eq_true, if_false]
    exact ih (fun d hd => h d (List.mem_cons_of_mem _ hd))

theorem matchAll_foldl (spec : DatasetSpec)
    (header_map : List (String × List String)) (cands : List String)
    (sel : List (String × String)) (mis : List String) :
    cands.foldl
        (fun acc canonical =>
          let column := find_column spec header_map canonical
          if pyTruthy column then (acc.1 ++ [(canonical, column.getD "")], acc.2)
          else (acc.1, acc.2 ++ [canonical]))
        (sel, mis) =
      (sel ++ cands.filterMap (fun c =>
          let m := find_column spec header_map c
          if pyTruthy m then some (c, m.getD "") else none),
        mis ++ cands.filter (fun c =>
          !(pyTruthy (find_column spec header_map c)))) := by
  induction cands generalizing sel mis with
  | nil => simp
  | cons c cs ih =>
    simp only [List.foldl_cons, List.filterMap_cons, List.filter_cons]
    by_cases h : pyTruthy (find_column spec header_map c) = true
    · simp only [h, if_true, Bool.not_true, Bool.false_eq_true, if_false]
      rw [ih]
      simp
    · have h' : pyTruthy (find_column spec header_map c) = false :=
        Bool.eq_false_iff.mpr h
      simp only [h', Bool.false_eq_true, if_false, Bool.not_false, if_true]
      rw [ih]
      simp

/-- C6: with match mode `any` and candidates `[A, B]` both resolvable, the
matcher selects exactly the first candidate `A` with its matched header and
reports nothing missing; and when no candidate resolves and the expectation
is required, `missing` is exactly the single `" / "`-joined candidate
list. -/
theorem any_mode_matching :
    (∀ (spec : DatasetSpec) (columns : List String)
        (expectation : HeaderExpectation) (A B colA : String),
      expectation.match_mode = "any" →
      expectation.candidates = [A, B] →
      find_column spec (normalize_headers (columns.map some)) A = some colA →
      colA ≠ "" →
      pyTruthy (find_column spec (normalize_headers (columns.map some)) B) =
        true →
      match_columns spec columns expectation = ([(A, colA)], [])) ∧
    (∀ (spec : DatasetSpec) (columns : List String)
        (expectation : HeaderExpectation),
      expectation.match_mode = "any" →
      expectation.required = true →
      (∀ c ∈ expectation.candidates,
        pyTruthy (find_column spec (normalize_headers (columns.map some)) c) =
          false) →
      match_columns spec columns expectation =
        ([], [String.intercalate " / " expectation.candidates])) := by
  constructor
  · intro spec columns expectation A B colA hmode hcand hA hAne _
    have hne : (expectation.match_mode == "all") = false := by
      rw [hmode]
      decide
    simp only [match_columns, hne, Bool.false_eq_true, if_false, hcand]
    simp only [anyFirst, hA, pyTruthy_some_ne hAne, if_true, Option.getD_some]
  · intro spec columns expectation hmode hreq hnone
    have hne : (expectation.match_mode == "all") = false := by
      rw [hmode]
      decide
    simp only [match_columns, hne, Bool.false_eq_true, if_false,
      anyFirst_none spec (normalize_headers (columns.map some))
        expectation.candidates hnone, hreq, if_true]

theorem any_mode_matching_witness :
    match_columns INSTRUMENT_RISK_METRIC_SPEC ["Forward PD", "Cumulative PD"]
      { name := "PD term structure", candidates := ["forwardPD", "cumulativePD"],
        required := true, match_mode := "any", note := none } =
      ([("forwardPD", "Forward PD")], []) :=
  any_mode_matching.1 INSTRUMENT_RISK_METRIC_SPEC ["Forward PD", "Cumulative PD"]
    { name := "PD term structure", candidates := ["forwardPD", "cumulativePD"],
      required := true, match_mode := "any", note := none }
    "forwardPD" "cumulativePD" "Forward PD" rfl rfl (by decide) (by decide)
    (by decide)

/-- C7: with match mode `all`, every candidate is attempted independently:
the selection is exactly the in-order list of resolvable candidates with
their matched headers and `missing` is exactly the in-order list of
unresolvable candidates; in particular for candidates `[A, B]` with only `A`
resolvable, the result is `({A: header}, [B])`. -/
theorem all_mode_matching :
    (∀ (spec : DatasetSpec) (columns : List String)
        (expectation : HeaderExpectation),
      expectation.match_mode = "all" →
      match_columns spec columns expectation =
        (expectation.candidates.filterMap (fun c =>
            let m := find_column spec (normalize_headers (columns.map some)) c
            if pyTruthy m then some (c, m.getD "") else none),
          expectation.candidates.filter (fun c =>
            !(pyTruthy (find_column spec
              (normalize_headers (columns.map some)) c))))) ∧
    (∀ (spec : DatasetSpec) (columns : List String)
        (expectation : HeaderExpectation) (A B colA : String),
      expectation.match_mode = "all" →
      expectation.candidates = [A, B] →
      find_column spec (normalize_headers (columns.map some)) A = some colA →
      colA ≠ "" →
      pyTruthy (find_column spec (normalize_headers (columns.map some)) B) =
        false →
      match_columns spec columns expectation = ([(A, colA)], [B])) := by
  have hall : ∀ (spec : DatasetSpec) (columns : List String)
      (expectation : HeaderExpectation),
      expectation.match_mode = "all" →
      match_columns spec columns expectation =
        (expectation.candidates.filterMap (fun c =>
            let m := find_column spec (normalize_headers (columns.map some)) c
            if pyTruthy m then some (c, m.getD "") else none),
          expectation.candidates.filter (fun c =>
            !(pyTruthy (find_column spec
              (normalize_headers (columns.map some)) c)))) := by
    intro spec columns expectation hmode
    have heq : (expectation.match_mode == "all") = true := by
      rw [hmode]
      decide
    simp only [match_columns, heq, if_true]
    rw [matchAll_foldl]
    simp
  refine ⟨hall, ?_⟩
  intro spec columns expectation A B colA hmode hcand hA hAne hB
  rw [hall spec columns expectation hmode, hcand]
  simp only [List.filterMap_cons, List.filter_cons, hA,
    pyTruthy_some_ne hAne, hB, if_true, Option.getD_some, Bool.not_true,
    Bool.not_false, Bool.false_eq_true, if_false, List.filterMap_nil,
    List.filter_nil]

theorem all_mode_matching_witness :
    match_columns INSTRUMENT_RISK_METRIC_SPEC ["Forward PD"]
      { name := "PD columns", candidates := ["forwardPD", "cumulativePD"],
        required := true, match_mode := "all", note := none } =
      ([("forwardPD", "Forward PD")], ["cumulativePD"]) :=
  all_mode_matching.2 INSTRUMENT_RISK_METRIC_SPEC ["Forward PD"]
    { name := "PD columns", candidates := ["forwardPD", "cumulativePD"],
      required := true, match_mode := "all", note := none }
    "forwardPD" "cumulativePD" "Forward PD" rfl rfl (by decide) (by decide)
    (by decide)

theorem evalList_expand (file_name : String) (sample_headers : List String) :
    evalList file_name sample_headers =
      evalOf INSTRUMENT_REFERENCE_SPEC file_name sample_headers ::
        [evalOf INSTRUMENT_RISK_METRIC_SPEC file_name sample_headers,
         evalOf INSTRUMENT_RESULT_SPEC file_name sample_headers,
         evalOf INSTRUMENT_CASHFLOW_SPEC file_name sample_headers,
         evalOf CHARGEOFF_SPEC file_name sample_headers] := by
  simp only [evalList, DATASET_SPECS, List.map_cons, List.map_nil]

set_option maxRecDepth 8192 in
/-- C8: whenever no spec is viable, detection fails with the error built
from a best-guess evaluation of maximal `total_score`, whose message names
that spec's display name and every missing required field with its full
alias candidate list; in particular the header row
`["Loan Number", "Balance"]` is rejected with the Instrument Reference
best-guess message listing both missing required fields and their alias
candidates. -/
theorem no_viable_detection_error :
    (∀ (file_name : String) (sample_headers : List String),
      viableEvals file_name sample_headers = [] →
      ∃ best, best ∈ evalList file_name sample_headers ∧
        (∀ e ∈ evalList file_name sample_headers,
          e.total_score ≤ best.total_score) ∧
        detect_file_profile file_name sample_headers =
          .error (detectionError file_name best)) ∧
    detect_file_profile "data.csv" ["Loan Number", "Balance"] =
      .error "File 'data.csv' resembles 'Instrument Reference' but is missing required headers: instrumentIdentifier (candidates: instrumentIdentifier, instrumentidentifier, instrument_identifier, instrument_id, instrumentid), portfolioIdentifier (candidates: portfolioIdentifier, portfolioidentifier, portfolio_identifier, portfolio_id, portfolioid)." := by
  constructor
  · intro file_name sample_headers hvi
    have hsort : sortDesc (viableEvals file_name sample_headers) = [] := by
      rw [hvi]
      rfl
    have hev := evalList_expand file_name sample_headers
    refine ⟨pyMaxBy (fun e => e.total_score)
      (evalOf INSTRUMENT_REFERENCE_SPEC file_name sample_headers)
      [evalOf INSTRUMENT_RISK_METRIC_SPEC file_name sample_headers,
       evalOf INSTRUMENT_RESULT_SPEC file_name sample_headers,
       evalOf INSTRUMENT_CASHFLOW_SPEC file_name sample_headers,
       evalOf CHARGEOFF_SPEC file_name sample_headers], ?_, ?_, ?_⟩
    · rw [hev]
      rcases pyMaxBy_mem (fun e => e.total_score) _ _ with h | h
      · rw [h]
        exact List.mem_cons_self _ _
      · exact List.mem_cons_of_mem _ h
    · intro e he
      rw [hev] at he
      rcases List.mem_cons.mp he with rfl | he'
      · exact (pyMaxBy_ge _ _ _).1
      · exact (pyMaxBy_ge _ _ _).2 e he'
    · simp only [detect_file_profile]
      rw [hsort, hev]
  · rfl

theorem no_viable_detection_error_witness :
    viableEvals "batch.csv" ["Loan Number", "Balance"] = [] ∧
    exceptOk (detect_file_profile "batch.csv" ["Loan Number", "Balance"]) =
      false := by
  have h := no_viable_detection_error.1 "batch.csv" ["Loan Number", "Balance"]
    (by decide)
  refine ⟨by decide, ?_⟩
  obtain ⟨best, -, -, herr⟩ := h
  rw [herr]
  rfl

/-- C10: when no spec is viable, the best guess named in the detection error
is the FIRST evaluation of maximal `total_score` in registry declaration
order: every earlier evaluation scores strictly lower and no evaluation
scores higher, so ties resolve to the earliest spec in the registry. -/
theorem best_guess_first_maximal (file_name : String)
    (sample_headers : List String)
    (hvi : viableEvals file_name sample_headers = []) :
    ∃ pre best post,
      evalList file_name sample_headers = pre ++ best :: post ∧
      (∀ e ∈ pre, e.total_score < best.total_score) ∧
      (∀ e ∈ evalList file_name sample_headers,
        e.total_score ≤ best.total_score) ∧
      detect_file_profile file_name sample_headers =
        .error (detectionError file_name best) := by
  have hsort : sortDesc (viableEvals file_name sample_headers) = [] := by
    rw [hvi]
    rfl
  have hev := evalList_expand file_name sample_headers
  obtain ⟨pre, post, hsplit, hpre⟩ := pyMaxBy_first (fun e => e.total_score)
    (evalOf INSTRUMENT_REFERENCE_SPEC file_name sample_headers)
    [evalOf INSTRUMENT_RISK_METRIC_SPEC file_name sample_headers,
     evalOf INSTRUMENT_RESULT_SPEC file_name sample_headers,
     evalOf INSTRUMENT_CASHFLOW_SPEC file_name sample_headers,
     evalOf CHARGEOFF_SPEC file_name sample_headers]
  refine ⟨pre, _, post, ?_, hpre, ?_, ?_⟩
  · rw [hev]
    exact hsplit
  · intro e he
    rw [hev] at he
    rcases List.mem_cons.mp he with rfl | he'
    · exact (pyMaxBy_ge _ _ _).1
    · exact (pyMaxBy_ge _ _ _).2 e he'
  · simp only [detect_file_profile]
    rw [hsort, hev]

theorem best_guess_first_maximal_witness :
    viableEvals "x.csv" ["Foo"] = [] ∧
    exceptOk (detect_file_profile "x.csv" ["Foo"]) = false := by
  have h := best_guess_first_maximal "x.csv" ["Foo"] (by decide)
  refine ⟨by decide, ?_⟩
  obtain ⟨pre, best, post, -, -, -, herr⟩ := h
  rw [herr]
  rfl

/-- C9: the header row `["Instrument ID", "Portfolio_Id", "Reporting Date",
"Forward PD"]` with file name `riskmetric_q1.csv` detects
`instrument_risk_metric`, with both required fields matched through the
tokens `instrumentid` and `reportingdate`, with `forwardPD` among the
matched optional fields — even though three other specs are viable on this
header row as well. -/
theorem end_to_end_risk_metric_detection :
    normalize_token "Instrument ID" = "instrumentid" ∧
    normalize_token "Reporting Date" = "reportingdate" ∧
    (detect_file_profile "riskmetric_q1.csv"
        ["Instrument ID", "Portfolio_Id", "Reporting Date", "Forward PD"]).toOption.map
        Prod.fst = some "instrument_risk_metric" ∧
    ((detect_file_profile "riskmetric_q1.csv"
        ["Instrument ID", "Portfolio_Id", "Reporting Date", "Forward PD"]).toOption.map
        (fun p => p.2.matched_required)).getD [] =
      [("instrumentIdentifier", "Instrument ID"),
       ("reportingDate", "Reporting Date")] ∧
    ("forwardPD", "Forward PD") ∈
      ((detect_file_profile "riskmetric_q1.csv"
        ["Instrument ID", "Portfolio_Id", "Reporting Date", "Forward PD"]).toOption.map
        (fun p => p.2.matched_optional)).getD [] ∧
    (viableEvals "riskmetric_q1.csv"
        ["Instrument ID", "Portfolio_Id", "Reporting Date", "Forward PD"]).map
        (fun e => e.spec.key) =
      ["instrument_reference", "instrument_risk_metric", "instrument_result",
       "chargeoff"] := by
  decide

set_option maxRecDepth 8192

theorem groupingHasFile_appendGroup (m : List (String × List LoadedFile))
    (k : String) (r : LoadedFile) :
    groupingHasFile (appendGroup m k r) r.file_name = true := by
  induction m with
  | nil => simp [appendGroup, groupingHasFile]
  | cons p rest ih =>
    obtain ⟨k0, rs⟩ := p
    simp only [appendGroup]
    by_cases h : (k0 == k) = true
    · simp [h, groupingHasFile, List.any_append]
    · have h' : (k0 == k) = false := Bool.eq_false_iff.mpr h
      simp only [h', Bool.false_eq_true, if_false]
      simp only [groupingHasFile, List.any_cons, Bool.or_eq_true] at ih ⊢
      exact Or.inr ih

theorem groupingHasFile_appendGroup_mono (m : List (String × List LoadedFile))
    (k : String) (r : LoadedFile) (n : String)
    (h : groupingHasFile m n = true) :
    groupingHasFile (appendGroup m k r) n = true := by
  induction m with
  | nil => simp [groupingHasFile] at h
  | cons p rest ih =>
    obtain ⟨k0, rs⟩ := p
    simp only [appendGroup]
    by_cases hk : (k0 == k) = true
    · simp only [hk, if_true]
      simp only [groupingHasFile, List.any_cons, Bool.or_eq_true,
        List.any_append] at h ⊢
      tauto
    · have hk' : (k0 == k) = false := Bool.eq_false_iff.mpr hk
      simp only [hk', Bool.false_eq_true, if_false]
      simp only [groupingHasFile, List.any_cons, Bool.or_eq_true] at h ⊢
      rcases h with h | h
      · exact Or.inl h
      · exact Or.inr (ih h)

theorem loadFilesFrom_all_ok (files : List (String × FileContent)) :
    ∀ acc, (∀ f ∈ files, fileSkippedB f = true ∨ fileLoadsB f = true) →
      ∃ g, loadFilesFrom acc files = .ok g ∧
        (∀ n, groupingHasFile acc n = true → groupingHasFile g n = true) ∧
        (∀ f ∈ files, fileLoadsB f = true → groupingHasFile g f.1 = true) := by
  induction files with
  | nil =>
    intro acc _
    exact ⟨acc, rfl, fun n h => h, by simp⟩
  | cons f fs ih =>
    intro acc hall
    obtain ⟨name, content⟩ := f
    cases content with
    | empty =>
      obtain ⟨g, hok, hmono, hmem⟩ :=
        ih acc (fun x hx => hall x (List.mem_cons_of_mem _ hx))
      refine ⟨g, hok, hmono, ?_⟩
      intro x hx hl
      rcases List.mem_cons.mp hx with rfl | hx'
      · simp [fileLoadsB] at hl
      · exact hmem x hx' hl
    | unparseable exc =>
      rcases hall (name, .unparseable exc) (List.mem_cons_self _ _) with h | h
      · simp [fileSkippedB] at h
      · simp [fileLoadsB] at h
    | table headers rows =>
      have hl : fileLoadsB (name, .table headers rows) = true := by
        rcases hall (name, .table headers rows) (List.mem_cons_self _ _) with h | h
        · simp [fileSkippedB] at h
        · exact h
      obtain ⟨kd, hdet⟩ : ∃ kd, detect_file_profile name headers = .ok kd := by
        simp only [fileLoadsB] at hl
        cases hd : detect_file_profile name headers with
        | ok kd => exact ⟨kd, rfl⟩
        | error e =>
          rw [hd] at hl
          simp at hl
      obtain ⟨dataset_key, diagnostics⟩ := kd
      simp only [loadFilesFrom, hdet]
      obtain ⟨g, hok, hmono, hmem⟩ := ih
        (appendGroup acc dataset_key
          { dataset_key := dataset_key, file_name := name,
            columns := headers.map pyStrip, row_count := rows,
            diagnostics := diagnostics })
        (fun x hx => hall x (List.mem_cons_of_mem _ hx))
      refine ⟨g, hok, ?_, ?_⟩
      · intro n hn
        exact hmono n (groupingHasFile_appendGroup_mono _ _ _ _ hn)
      · intro x hx hlx
        rcases List.mem_cons.mp hx with rfl | hx'
        · exact hmono name (groupingHasFile_appendGroup acc dataset_key _)
        · exact hmem x hx' hlx

theorem loadFilesFrom_fail (files : List (String × FileContent)) :
    ∀ acc, (∃ f ∈ files, fileFailsB f = true) →
      ∃ msg, loadFilesFrom acc files = .error msg := by
  induction files with
  | nil =>
    intro acc h
    simp at h
  | cons f fs ih =>
    intro acc h
    obtain ⟨name, content⟩ := f
    cases content with
    | empty =>
      have h' : ∃ x ∈ fs, fileFailsB x = true := by
        obtain ⟨x, hx, hfx⟩ := h
        rcases List.mem_cons.mp hx with rfl | hx'
        · simp [fileFailsB, fileSkippedB] at hfx
        · exact ⟨x, hx', hfx⟩
      simpa [loadFilesFrom] using ih acc h'
    | unparseable exc =>
      exact ⟨_, rfl⟩
    | table headers rows =>
      cases hd : detect_file_profile name headers with
      | error e =>
        refine ⟨e, ?_⟩
        simp [loadFilesFrom, hd]
      | ok kd =>
        obtain ⟨dataset_key, diagnostics⟩ := kd
        have h' : ∃ x ∈ fs, fileFailsB x = true := by
          obtain ⟨x, hx, hfx⟩ := h
          rcases List.mem_cons.mp hx with rfl | hx'
          · simp [fileFailsB, fileSkippedB, fileLoadsB, hd] at hfx
          · exact ⟨x, hx', hfx⟩
        simp only [loadFilesFrom, hd]
        exact ih _ h'

/-- C1 (amended): the loader walks the batch in order; empty files are
skipped independently, and when every non-empty file parses and detects
successfully the returned grouping contains every such file; but an
unparseable file or a detection failure anywhere in the batch raises, so the
whole call fails and no grouping at all is returned — remaining files are
not loaded. (The claim's assertion that one file's failure leaves the other
files loaded is amended accordingly.) -/
theorem batch_loading_amended :
    (∀ files : List (String × FileContent),
      (∀ f ∈ files, fileSkippedB f = true ∨ fileLoadsB f = true) →
      ∃ g, load_uploaded_files files = .ok g ∧
        ∀ f ∈ files, fileLoadsB f = true → groupingHasFile g f.1 = true) ∧
    (∀ files : List (String × FileContent),
      (∃ f ∈ files, fileFailsB f = true) →
      ∃ msg, load_uploaded_files files = .error msg) := by
  constructor
  · intro files hall
    obtain ⟨g, hok, -, hmem⟩ := loadFilesFrom_all_ok files [] hall
    exact ⟨g, hok, hmem⟩
  · intro files hex
    exact loadFilesFrom_fail files [] hex

/-- C1 counterexample: in the two-file batch whose first file is an
unparseable blob, `load_uploaded_files` raises and returns no grouping, even
though the second file on its own classifies and loads successfully — one
file's failure does prevent the rest of the batch from being loaded. -/
theorem batch_loading_cex :
    load_uploaded_files
        [("bad.csv", FileContent.unparseable "boom"),
         ("reference_data.csv",
           FileContent.table ["Instrument ID", "Portfolio ID"] 3)] =
      .error "Unable to read CSV headers for file 'bad.csv': boom" ∧
    exceptOk (load_uploaded_files
        [("reference_data.csv",
           FileContent.table ["Instrument ID", "Portfolio ID"] 3)]) = true := by
  constructor
  · rfl
  · rfl

theorem batch_loading_amended_witness :
    exceptOk (load_uploaded_files
      [("empty.csv", FileContent.empty),
       ("reference_data.csv",
         FileContent.table ["Instrument ID", "Portfolio ID"] 2)]) = true ∧
    exceptOk (load_uploaded_files
      [("nope.csv", FileContent.unparseable "oops")]) = false := by
  constructor
  · obtain ⟨g, hok, -⟩ := batch_loading_amended.1
      [("empty.csv", FileContent.empty),
       ("reference_data.csv",
         FileContent.table ["Instrument ID", "Portfolio ID"] 2)]
      (by decide)
    rw [hok]
    rfl
  · obtain ⟨msg, herr⟩ := batch_loading_amended.2
      [("nope.csv", FileContent.unparseable "oops")]
      ⟨("nope.csv", FileContent.unparseable "oops"), by decide, by decide⟩
    rw [herr]
    rfl
